import Mathlib

/-!
Shallow embedding of the four point generators of the 3d_prime_walk
data scripts, together with theorems checking the specification's claims
against them.

Each Python function is translated to a Lean definition over exact real
arithmetic: machine floats become real numbers, Python lists become Lean
lists, and fallible operations (integer floor division by zero, the domain
error of the square root of a negative number) become values of an
`Except` type, so that raised exceptions are observable results.
-/

/-- Faults a generator script can raise.  `invalidParameter` stands for the
validation failure issued by an argparse main function, `zeroDivision` for
a Python ZeroDivisionError, `valueError` for the ValueError raised by
taking the square root of a negative number. -/
inductive PyErr
| invalidParameter
| zeroDivision
| valueError

/-- A 3D point, as the tuples `(x, y, z)` the scripts append to their
coordinate lists. -/
abbrev P3 := ℝ × ℝ × ℝ

/-- Embeds Python's `range(n)` for an integer `n`: the indices `0,...,n-1`,
empty when `n` is not positive. -/
def pyRange (n : ℤ) : List ℕ := List.range n.toNat

/-- True exactly on non-faulting results. -/
def exOk {ε α : Type} : Except ε α → Bool
| .ok _ => true
| .error _ => false

/-- Length of the produced list, when the computation did not fault. -/
def exLen {ε α : Type} : Except ε (List α) → Option ℕ
| .ok l => some l.length
| .error _ => none

/-- Element at index `i` of the produced list, when the computation did not
fault and the index is in range. -/
def exGet {ε α : Type} : Except ε (List α) → ℕ → Option α
| .ok l, i => l[i]?
| .error _, _ => none

/-- Embeds Python's true division `a / b` by an integer `b`, which raises
ZeroDivisionError when `b = 0`. -/
noncomputable def pyDivZ (a : ℝ) (b : ℤ) : Except PyErr ℝ :=
  if b = 0 then .error .zeroDivision else .ok (a / (b : ℝ))

/-- Embeds Python's `math.sqrt`, which raises ValueError on a negative
argument. -/
noncomputable def mathSqrt (x : ℝ) : Except PyErr ℝ :=
  if x < 0 then .error .valueError else .ok (Real.sqrt x)

/-- Embeds the local helper `lcm(a, b) = abs(a * b) // gcd(a, b)` of
`generate_lissajous.py`; the floor division raises ZeroDivisionError when
`gcd(a, b) = 0`, i.e. when both arguments are zero. -/
def pyLcm (m n : ℤ) : Except PyErr ℤ :=
  if Int.gcd m n = 0 then .error .zeroDivision
  else .ok (((m * n).natAbs / Int.gcd m n : ℕ) : ℤ)

/-- Embeds `generate_lissajous` of `generate_lissajous.py`: compute
`period = lcm(lcm(a, b), c)` and `t_max = 2 * pi * period`, then for each
`i` in `range(steps)` sample `t = (i / steps) * t_max` and append
`(amp_x * sin(a*t + phase_x), amp_y * sin(b*t + phase_y),
amp_z * sin(c*t + phase_z))`. -/
noncomputable def generate_lissajous (a b c : ℤ)
    (phase_x phase_y phase_z amp_x amp_y amp_z : ℝ) (steps : ℤ) :
    Except PyErr (List P3) :=
  match pyLcm a b with
  | .error e => .error e
  | .ok ab =>
    match pyLcm ab c with
    | .error e => .error e
    | .ok period =>
      .ok ((pyRange steps).map fun (i : ℕ) =>
        let t : ℝ := ((i : ℝ) / (steps : ℝ)) * (2 * Real.pi * (period : ℝ))
        (amp_x * Real.sin ((a : ℝ) * t + phase_x),
         amp_y * Real.sin ((b : ℝ) * t + phase_y),
         amp_z * Real.sin ((c : ℝ) * t + phase_z)))

/-- The i-th Lissajous point as the specification states it: period taken
as the mathematical `lcm(lcm(a, b), c)`, `t = (i / steps) * 2 * pi * period`,
coordinates `amp * sin(freq * t + phase)` per axis. -/
noncomputable def lissajousPointSpec (a b c : ℤ)
    (phase_x phase_y phase_z amp_x amp_y amp_z : ℝ) (steps : ℤ) (i : ℕ) : P3 :=
  let period : ℕ := Int.lcm ((Int.lcm a b : ℕ) : ℤ) c
  let t : ℝ := ((i : ℝ) / (steps : ℝ)) * (2 * Real.pi * (period : ℝ))
  (amp_x * Real.sin ((a : ℝ) * t + phase_x),
   amp_y * Real.sin ((b : ℝ) * t + phase_y),
   amp_z * Real.sin ((c : ℝ) * t + phase_z))

/-- One Euler update of `lorenz_attractor` in `generate_lorenz.py`:
derivatives `dx = sigma*(y-x)`, `dy = x*(rho-z)-y`, `dz = x*y-beta*z` at the
current state with `sigma = 10`, `rho = 28`, `beta = 8/3`, then
`x += dx*dt`, `y += dy*dt`, `z += dz*dt`. -/
noncomputable def lorenzStep (dt : ℝ) (s : P3) : P3 :=
  (s.1 + 10 * (s.2.1 - s.1) * dt,
   s.2.1 + (s.1 * (28 - s.2.2) - s.2.1) * dt,
   s.2.2 + (s.1 * s.2.1 - 8 / 3 * s.2.2) * dt)

/-- The point `lorenz_attractor` appends for a state: the state scaled by
the fixed factor `scale = 10.0`. -/
noncomputable def lorenzEmit (s : P3) : P3 := (s.1 * 10, s.2.1 * 10, s.2.2 * 10)

/-- The loop of `lorenz_attractor`: at each iteration append the current
(pre-update) scaled state, then advance the state by one Euler step. -/
noncomputable def lorenzLoop (dt : ℝ) : ℕ → P3 → List P3
| 0, _ => []
| n + 1, s => lorenzEmit s :: lorenzLoop dt n (lorenzStep dt s)

/-- Embeds `lorenz_attractor` of `generate_lorenz.py`: run the Euler loop
for `range(steps)` iterations from the initial state `(0.1, 0, 0)`. -/
noncomputable def lorenz_attractor (steps : ℤ) (dt : ℝ) : List P3 :=
  lorenzLoop dt steps.toNat (0.1, 0, 0)

/-- The loop of `lorenz_attractor` as a step relation: `LorenzRun dt n s l`
holds when one run of `n` remaining iterations from state `s` emits exactly
the list `l`.  Used to state that the generator's output is determined by
its parameters alone. -/
inductive LorenzRun (dt : ℝ) : ℕ → P3 → List P3 → Prop
| done (s : P3) : LorenzRun dt 0 s []
| step (n : ℕ) (s : P3) (l : List P3)
    (h : LorenzRun dt n (lorenzStep dt s) l) :
    LorenzRun dt (n + 1) s (lorenzEmit s :: l)

/-- The loop of `spiral` in `generate_spiral_sphere.py`: at each iteration
compute `y_radius = math.sqrt(radius*radius - y*y)` (a ValueError fault if
the argument is negative: the source has no clamp), append
`(cos(turn_angle) * y_radius, y, sin(turn_angle) * y_radius)`, then advance
`y` by `yStep` and the angle by `angStep`. -/
noncomputable def spiralLoop (radius yStep angStep : ℝ) :
    ℕ → ℝ → ℝ → Except PyErr (List P3)
| 0, _, _ => .ok []
| n + 1, y, ang =>
  match mathSqrt (radius * radius - y * y) with
  | .error e => .error e
  | .ok yr =>
    match spiralLoop radius yStep angStep n (y + yStep) (ang + angStep) with
    | .error e => .error e
    | .ok rest => .ok ((Real.cos ang * yr, y, Real.sin ang * yr) :: rest)

/-- Embeds `spiral` of `generate_spiral_sphere.py`: before the loop it
computes `y_step = (2 * radius) / steps` and
`turn_angle_step = turns * 2 * pi / steps` (both raise ZeroDivisionError
when `steps = 0`), then runs the loop from `y = -radius`,
`turn_angle = 0`. -/
noncomputable def spiral (steps : ℤ) (radius turns : ℝ) : Except PyErr (List P3) :=
  match pyDivZ (2 * radius) steps with
  | .error e => .error e
  | .ok yStep =>
    match pyDivZ (turns * 2 * Real.pi) steps with
    | .error e => .error e
    | .ok angStep => spiralLoop radius yStep angStep steps.toNat (-radius) 0

/-- A point lies on the sphere of the given radius centered at the
origin. -/
def onSphere (radius : ℝ) (pt : P3) : Prop :=
  pt.1 ^ 2 + pt.2.1 ^ 2 + pt.2.2 ^ 2 = radius ^ 2

/-- The parameter value sampled by `generate_torus_knot` at index `i`:
`t = (i / steps) * t_max` with `t_max = 2 * pi * max(p, q)`. -/
noncomputable def torusT (p q steps : ℤ) (i : ℕ) : ℝ :=
  ((i : ℝ) / (steps : ℝ)) * (2 * Real.pi * ((max p q : ℤ) : ℝ))

/-- Embeds `generate_torus_knot` of `generate_torus_knot.py`: for each `i`
in `range(steps)` sample `t` and append
`((R + r*cos(p*t)) * cos(q*t), (R + r*cos(p*t)) * sin(q*t), r*sin(p*t))`. -/
noncomputable def generate_torus_knot (p q : ℤ) (R r : ℝ) (steps : ℤ) : List P3 :=
  (pyRange steps).map fun i =>
    let t := torusT p q steps i
    ((R + r * Real.cos ((p : ℝ) * t)) * Real.cos ((q : ℝ) * t),
     (R + r * Real.cos ((p : ℝ) * t)) * Real.sin ((q : ℝ) * t),
     r * Real.sin ((p : ℝ) * t))

/-- The i-th torus-knot point as the specification states it. -/
noncomputable def torusPointSpec (p q : ℤ) (R r : ℝ) (steps : ℤ) (i : ℕ) : P3 :=
  let t : ℝ := ((i : ℝ) / (steps : ℝ)) * (2 * Real.pi * ((max p q : ℤ) : ℝ))
  ((R + r * Real.cos ((p : ℝ) * t)) * Real.cos ((q : ℝ) * t),
   (R + r * Real.cos ((p : ℝ) * t)) * Real.sin ((q : ℝ) * t),
   r * Real.sin ((p : ℝ) * t))

/-- Embeds the validation-plus-generation path of `main` in
`generate_lissajous.py`: `parser.error` (modelled as `invalidParameter`)
when any frequency is non-positive, otherwise the generator runs. -/
noncomputable def lissajous_main (a b c : ℤ)
    (phase_x phase_y phase_z amp_x amp_y amp_z : ℝ) (steps : ℤ) :
    Except PyErr (List P3) :=
  if a ≤ 0 ∨ b ≤ 0 ∨ c ≤ 0 then .error .invalidParameter
  else generate_lissajous a b c phase_x phase_y phase_z amp_x amp_y amp_z steps

/-- Embeds the validation-plus-generation path of `main` in
`generate_torus_knot.py`: `parser.error` when `p` or `q` is non-positive,
otherwise the generator runs. -/
noncomputable def torus_knot_main (p q : ℤ) (R r : ℝ) (steps : ℤ) :
    Except PyErr (List P3) :=
  if p ≤ 0 ∨ q ≤ 0 then .error .invalidParameter
  else .ok (generate_torus_knot p q R r steps)

/-! ### Helper lemmas -/

/-- The code's lcm helper agrees with the mathematical lcm whenever the
guarding gcd is nonzero. -/
theorem pyLcm_eq (m n : ℤ) (h : Int.gcd m n ≠ 0) :
    pyLcm m n = .ok ((Int.lcm m n : ℕ) : ℤ) := by
  simp only [pyLcm, if_neg h]
  congr 1
  rw [Int.lcm, Int.natAbs_mul]
  rfl

theorem lorenzLoop_length (dt : ℝ) :
    ∀ (n : ℕ) (s : P3), (lorenzLoop dt n s).length = n := by
  intro n
  induction n with
  | zero => intro s; rfl
  | succ n ih => intro s; simp [lorenzLoop, ih]

theorem lorenzLoop_getElem (dt : ℝ) :
    ∀ (n : ℕ) (s : P3) (i : ℕ), i < n →
      (lorenzLoop dt n s)[i]? = some (lorenzEmit ((lorenzStep dt)^[i] s)) := by
  intro n
  induction n with
  | zero => intro s i hi; omega
  | succ n ih =>
    intro s i hi
    cases i with
    | zero => simp [lorenzLoop]
    | succ i =>
      have h := ih (lorenzStep dt s) i (by omega)
      simp [lorenzLoop, h, Function.iterate_succ_apply]

theorem lorenzRun_det (dt : ℝ) :
    ∀ (n : ℕ) (s : P3) (l1 l2 : List P3),
      LorenzRun dt n s l1 → LorenzRun dt n s l2 → l1 = l2 := by
  intro n
  induction n with
  | zero =>
    intro s l1 l2 h1 h2
    cases h1; cases h2; rfl
  | succ n ih =>
    intro s l1 l2 h1 h2
    cases h1 with
    | step _ _ l h1 =>
      cases h2 with
      | step _ _ l2t h2 => rw [ih (lorenzStep dt s) l l2t h1 h2]

theorem lorenzRun_loop (dt : ℝ) :
    ∀ (n : ℕ) (s : P3), LorenzRun dt n s (lorenzLoop dt n s) := by
  intro n
  induction n with
  | zero => intro s; exact LorenzRun.done s
  | succ n ih => intro s; exact LorenzRun.step n s _ (ih (lorenzStep dt s))

/-- Core invariant of the spiral loop: if every `y` value the loop will
visit keeps `y^2` within `radius^2`, the loop completes without a fault and
every point it emits lies on the sphere. -/
theorem spiralLoop_ok_sphere (radius yStep angStep : ℝ) :
    ∀ (n : ℕ) (y ang : ℝ),
      (∀ k : ℕ, k < n → (y + (k : ℝ) * yStep) ^ 2 ≤ radius ^ 2) →
      ∃ l, spiralLoop radius yStep angStep n y ang = .ok l ∧
        ∀ pt ∈ l, onSphere radius pt := by
  intro n
  induction n with
  | zero =>
    intro y ang _
    exact ⟨[], rfl, by simp⟩
  | succ n ih =>
    intro y ang hb
    have h0 : y ^ 2 ≤ radius ^ 2 := by
      have h := hb 0 (Nat.succ_pos n)
      simpa using h
    have harg : ¬ (radius * radius - y * y < 0) := by nlinarith
    have hargn : 0 ≤ radius * radius - y * y := by nlinarith
    have hnext : ∀ k : ℕ, k < n → ((y + yStep) + (k : ℝ) * yStep) ^ 2 ≤ radius ^ 2 := by
      intro k hk
      have h := hb (k + 1) (by omega)
      have he : (y + ((k : ℕ) + 1 : ℝ) * yStep) = ((y + yStep) + (k : ℝ) * yStep) := by
        ring
      rw [← he]
      simpa using h
    obtain ⟨l, hl, hsph⟩ := ih (y + yStep) (ang + angStep) hnext
    refine ⟨(Real.cos ang * Real.sqrt (radius * radius - y * y), y,
             Real.sin ang * Real.sqrt (radius * radius - y * y)) :: l, ?_, ?_⟩
    · have hms : mathSqrt (radius * radius - y * y) =
          .ok (Real.sqrt (radius * radius - y * y)) := by
        rw [mathSqrt, if_neg harg]
      simp [spiralLoop, hms, hl]
    · intro pt hpt
      rcases List.mem_cons.mp hpt with h | h
      · subst h
        have h1 := Real.sin_sq_add_cos_sq ang
        have h2 := Real.sq_sqrt hargn
        unfold onSphere
        dsimp only
        linear_combination (Real.cos ang ^ 2 + Real.sin ang ^ 2) * h2 +
          (radius * radius - y * y) * h1
      · exact hsph pt h

/-- Bound on the y values the spiral loop visits: for positive steps and
radius, every sampled `y = -radius + k * (2 * radius / steps)` with
`k < steps` stays within the sphere. -/
theorem spiral_bound (steps : ℤ) (radius : ℝ) (hs : 0 < steps) (hr : 0 < radius) :
    ∀ k : ℕ, k < steps.toNat →
      (-radius + (k : ℝ) * (2 * radius / (steps : ℝ))) ^ 2 ≤ radius ^ 2 := by
  intro k hk
  have hS : (0 : ℝ) < (steps : ℝ) := by exact_mod_cast hs
  have hkZ : (k : ℤ) < steps := by omega
  have hkS : (k : ℝ) < (steps : ℝ) := by exact_mod_cast hkZ
  have hstep : (0 : ℝ) < 2 * radius / (steps : ℝ) := by positivity
  have h1 : 0 ≤ (k : ℝ) * (2 * radius / (steps : ℝ)) := by positivity
  have h2 : (k : ℝ) * (2 * radius / (steps : ℝ)) ≤ 2 * radius := by
    have h3 : (k : ℝ) * (2 * radius / (steps : ℝ)) ≤
        (steps : ℝ) * (2 * radius / (steps : ℝ)) :=
      mul_le_mul_of_nonneg_right hkS.le hstep.le
    have h4 : (steps : ℝ) * (2 * radius / (steps : ℝ)) = 2 * radius := by
      field_simp
    linarith
  nlinarith

/-! ### Claim C1 -/

/-- C1 counterexample: the claim says the argument of the square root is
clamped to be nonnegative so a negative value is never propagated as a
fault.  The code has no clamp: entering the loop body of `spiral` at a
state with `y * y > radius * radius` (the state the specification says
floating-point rounding can produce at the poles) raises ValueError instead
of clamping to zero.  Here `radius = 1` and `y = 2`. -/
theorem spiralLoop_negative_arg_faults :
    spiralLoop 1 1 1 1 2 0 = .error .valueError := by
  have hms : mathSqrt ((1 : ℝ) * 1 - 2 * 2) = .error .valueError := by
    rw [mathSqrt, if_pos (by norm_num : ((1 : ℝ) * 1 - 2 * 2) < 0)]
  simp only [spiralLoop]
  rw [hms]

/-- C1 (amended): `spiral` computes `y_radius = sqrt(radius^2 - y^2)` with
no clamping, but in exact real arithmetic the argument is nonnegative at
every emitted step, so for every positive steps and radius (and any turns)
the generator completes without a NaN or domain error. -/
theorem spiral_never_faults (steps : ℤ) (radius turns : ℝ)
    (hs : 0 < steps) (hr : 0 < radius) :
    exOk (spiral steps radius turns) = true := by
  have hne : steps ≠ 0 := by omega
  obtain ⟨l, hl, -⟩ := spiralLoop_ok_sphere radius (2 * radius / (steps : ℝ))
      (turns * 2 * Real.pi / (steps : ℝ)) steps.toNat (-radius) 0
      (spiral_bound steps radius hs hr)
  simp [spiral, pyDivZ, hne, hl, exOk]

/-- C1 witness: the amended theorem at `steps = 1`, `radius = 1`,
`turns = 1`. -/
theorem spiral_never_faults_witness : exOk (spiral 1 1 1) = true :=
  spiral_never_faults 1 1 1 (by norm_num) (by norm_num)

/-! ### Claim C2 -/

/-- C2 counterexample: a violated positivity constraint that raises
nothing.  The torus-knot main validates only `p` and `q`: called with
non-positive radii `R = r = -1` (and one step) it runs to completion and
produces a point instead of raising InvalidParameter. -/
theorem torus_knot_main_accepts_nonpositive_radius :
    torus_knot_main 3 2 (-1) (-1) 1 = .ok [((-2 : ℝ), 0, 0)] := by
  have ht : torusT 3 2 1 0 = 0 := by simp [torusT]
  have h32 : ¬ ((3 : ℤ) ≤ 0 ∨ (2 : ℤ) ≤ 0) := by norm_num
  rw [torus_knot_main, if_neg h32]
  simp only [generate_torus_knot, pyRange]
  norm_num [List.range_succ, ht]

/-- C2 (amended): positivity validation exists only for the Lissajous
frequencies `a, b, c` and the torus-knot winding numbers `p, q`; when any
of those is non-positive the corresponding main raises InvalidParameter
before generation.  Other positivity constraints (radius, amplitudes, step
count) are not validated anywhere. -/
theorem mains_reject_nonpositive_freq_winding :
    (∀ (a b c : ℤ) (px py pz ax ay az : ℝ) (steps : ℤ),
      (a ≤ 0 ∨ b ≤ 0 ∨ c ≤ 0) →
      lissajous_main a b c px py pz ax ay az steps = .error .invalidParameter) ∧
    (∀ (p q : ℤ) (R r : ℝ) (steps : ℤ),
      (p ≤ 0 ∨ q ≤ 0) →
      torus_knot_main p q R r steps = .error .invalidParameter) := by
  constructor
  · intro a b c px py pz ax ay az steps h
    rw [lissajous_main, if_pos h]
  · intro p q R r steps h
    rw [torus_knot_main, if_pos h]

/-- C2 witness: the amended theorem at `a = 0` and at `p = 0`. -/
theorem mains_reject_nonpositive_freq_winding_witness :
    lissajous_main 0 1 1 0 0 0 1 1 1 5 = .error .invalidParameter ∧
    torus_knot_main 0 1 1 1 5 = .error .invalidParameter :=
  ⟨mains_reject_nonpositive_freq_winding.1 0 1 1 0 0 0 1 1 1 5 (Or.inl (by norm_num)),
   mains_reject_nonpositive_freq_winding.2 0 1 1 1 5 (Or.inl (by norm_num))⟩

/-! ### Claim C8 -/

/-- C8 counterexample: the claim says every generation function called
directly with a non-positive step count returns the empty sequence and
raises no error.  `spiral` computes `y_step = (2 * radius) / steps` before
its loop, so at `steps = 0` it raises ZeroDivisionError instead. -/
theorem spiral_zero_steps_zero_division :
    spiral 0 (200 : ℝ) 30 = .error .zeroDivision := by
  simp [spiral, pyDivZ]

/-- C8 (amended): with a non-positive step count, `generate_lissajous`
(for positive frequencies), `lorenz_attractor` and `generate_torus_knot`
return the empty sequence and raise no error; `spiral` does so only for
`steps < 0`, raising ZeroDivisionError at `steps = 0`. -/
theorem generators_empty_on_nonpositive_steps (a b c : ℤ)
    (px py pz ax ay az dt radius turns R r : ℝ) (p q steps : ℤ)
    (hs : steps ≤ 0) (ha : 0 < a) (_hb : 0 < b) (hc : 0 < c) :
    generate_lissajous a b c px py pz ax ay az steps = .ok [] ∧
    lorenz_attractor steps dt = [] ∧
    (steps < 0 → spiral steps radius turns = .ok []) ∧
    generate_torus_knot p q R r steps = [] := by
  have ht : steps.toNat = 0 := by omega
  have hab : Int.gcd a b ≠ 0 := by
    rw [Ne, Int.gcd_eq_zero_iff]
    rintro ⟨h1, -⟩
    omega
  have hlc : Int.gcd ((Int.lcm a b : ℕ) : ℤ) c ≠ 0 := by
    rw [Ne, Int.gcd_eq_zero_iff]
    rintro ⟨-, h2⟩
    omega
  refine ⟨?_, ?_, ?_, ?_⟩
  · simp [generate_lissajous, pyLcm_eq _ _ hab, pyLcm_eq _ _ hlc, pyRange, ht]
  · simp [lorenz_attractor, ht, lorenzLoop]
  · intro hneg
    have hne : steps ≠ 0 := by omega
    simp [spiral, pyDivZ, hne, ht, spiralLoop]
  · simp [generate_torus_knot, pyRange, ht]

/-- C8 witness: the amended theorem at `steps = -1` for all four
generators. -/
theorem generators_empty_on_nonpositive_steps_witness :
    generate_lissajous 1 1 1 0 0 0 1 1 1 (-1) = .ok [] ∧
    lorenz_attractor (-1) 1 = [] ∧
    spiral (-1) 1 1 = .ok [] ∧
    generate_torus_knot 1 1 1 1 (-1) = [] := by
  have h := generators_empty_on_nonpositive_steps 1 1 1 0 0 0 1 1 1 1 1 1 1 1 1 1 (-1)
      (by norm_num) (by norm_num) (by norm_num) (by norm_num)
  exact ⟨h.1, h.2.1, h.2.2.1 (by norm_num), h.2.2.2⟩

/-! ### Claim C10 -/

/-- C10: calling `generate_lissajous` directly with `a = 0` and `b = 0`
makes `gcd(a, b) = 0`, and the unguarded floor division in the local lcm
helper raises ZeroDivisionError (not the InvalidParameter validation
failure), whatever the remaining arguments are. -/
theorem generate_lissajous_gcd_zero_division (c : ℤ)
    (px py pz ax ay az : ℝ) (steps : ℤ) :
    generate_lissajous 0 0 c px py pz ax ay az steps = .error .zeroDivision := by
  simp [generate_lissajous, pyLcm]

/-! ### Claim C3 -/

/-- C3: for positive integer frequencies and a positive step count the
Lissajous generator succeeds with exactly `steps` points; the i-th point is
`(amp_x * sin(a*t_i + phase_x), amp_y * sin(b*t_i + phase_y),
amp_z * sin(c*t_i + phase_z))` with `t_i = (i / steps) * 2 * pi * period`
and `period = lcm(lcm(a, b), c)` (the code's `abs(m*n) // gcd(m, n)` helper
agreeing with the mathematical lcm); the first point is
`(amp_x * sin(phase_x), amp_y * sin(phase_y), amp_z * sin(phase_z))`. -/
theorem generate_lissajous_spec_correct (a b c : ℤ)
    (px py pz ax ay az : ℝ) (steps : ℤ)
    (ha : 0 < a) (_hb : 0 < b) (hc : 0 < c) (hs : 0 < steps) :
    exLen (generate_lissajous a b c px py pz ax ay az steps) = some steps.toNat ∧
    (∀ i : ℕ, i < steps.toNat →
      exGet (generate_lissajous a b c px py pz ax ay az steps) i =
        some (lissajousPointSpec a b c px py pz ax ay az steps i)) ∧
    exGet (generate_lissajous a b c px py pz ax ay az steps) 0 =
      some (ax * Real.sin px, ay * Real.sin py, az * Real.sin pz) := by
  have hab : Int.gcd a b ≠ 0 := by
    rw [Ne, Int.gcd_eq_zero_iff]
    rintro ⟨h1, -⟩
    omega
  have hlc : Int.gcd ((Int.lcm a b : ℕ) : ℤ) c ≠ 0 := by
    rw [Ne, Int.gcd_eq_zero_iff]
    rintro ⟨-, h2⟩
    omega
  have hgen : generate_lissajous a b c px py pz ax ay az steps =
      .ok ((pyRange steps).map fun i =>
        lissajousPointSpec a b c px py pz ax ay az steps i) := by
    simp only [generate_lissajous, pyLcm_eq _ _ hab, pyLcm_eq _ _ hlc]
    congr 1
  have hmem : ∀ i : ℕ, i < steps.toNat →
      exGet (generate_lissajous a b c px py pz ax ay az steps) i =
        some (lissajousPointSpec a b c px py pz ax ay az steps i) := by
    intro i hi
    rw [hgen]
    simp [exGet, pyRange, List.getElem?_map, List.getElem?_range, hi]
  refine ⟨?_, hmem, ?_⟩
  · rw [hgen]
    simp [exLen, pyRange]
  · have h0 := hmem 0 (by omega)
    rw [h0]
    simp [lissajousPointSpec]

/-- C3 witness: the theorem at `a = b = c = 1`, zero phases, unit
amplitudes, one step. -/
theorem generate_lissajous_spec_correct_witness :
    exLen (generate_lissajous 1 1 1 0 0 0 1 1 1 1) = some 1 ∧
    exGet (generate_lissajous 1 1 1 0 0 0 1 1 1 1) 0 =
      some ((1 : ℝ) * Real.sin 0, (1 : ℝ) * Real.sin 0, (1 : ℝ) * Real.sin 0) := by
  have h := generate_lissajous_spec_correct 1 1 1 0 0 0 1 1 1 1
    (by norm_num) (by norm_num) (by norm_num) (by norm_num)
  exact ⟨h.1, h.2.2⟩

/-! ### Claim C4 -/

/-- C4: the Lorenz generator returns exactly `steps` points; the i-th point
is the i-th Euler iterate of the fixed initial state `(0.1, 0, 0)` under
the update with `sigma = 10`, `rho = 28`, `beta = 8/3`, scaled by 10, the
state being emitted before it is advanced; the first point is
`(1.0, 0.0, 0.0)`. -/
theorem lorenz_attractor_euler_spec (steps : ℤ) (dt : ℝ)
    (hs : 0 < steps) (_hdt : 0 < dt) :
    (lorenz_attractor steps dt).length = steps.toNat ∧
    (∀ i : ℕ, i < steps.toNat →
      (lorenz_attractor steps dt)[i]? =
        some (lorenzEmit ((lorenzStep dt)^[i] (0.1, 0, 0)))) ∧
    (lorenz_attractor steps dt)[0]? = some (1, 0, 0) := by
  refine ⟨lorenzLoop_length dt steps.toNat _, ?_, ?_⟩
  · intro i hi
    exact lorenzLoop_getElem dt steps.toNat (0.1, 0, 0) i hi
  · have h0 : (0 : ℕ) < steps.toNat := by omega
    have h := lorenzLoop_getElem dt steps.toNat (0.1, 0, 0) 0 h0
    rw [lorenz_attractor, h]
    norm_num [lorenzEmit, Function.iterate_zero]

/-- C4 witness: the theorem at `steps = 1`, `dt = 1`. -/
theorem lorenz_attractor_euler_spec_witness :
    (lorenz_attractor 1 1).length = 1 ∧
    (lorenz_attractor 1 1)[0]? = some ((1 : ℝ), 0, 0) := by
  have h := lorenz_attractor_euler_spec 1 1 (by norm_num) (by norm_num)
  exact ⟨h.1, h.2.2⟩

/-! ### Claim C5 -/

/-- C5: for positive winding numbers and a positive step count the
torus-knot generator returns exactly `steps` points; the i-th point is
`((R + r*cos(p*t_i)) * cos(q*t_i), (R + r*cos(p*t_i)) * sin(q*t_i),
r*sin(p*t_i))` with `t_i = (i / steps) * 2 * pi * max(p, q)`. -/
theorem generate_torus_knot_spec_correct (p q : ℤ) (R r : ℝ) (steps : ℤ)
    (_hp : 0 < p) (_hq : 0 < q) (_hs : 0 < steps) :
    (generate_torus_knot p q R r steps).length = steps.toNat ∧
    (∀ i : ℕ, i < steps.toNat →
      (generate_torus_knot p q R r steps)[i]? =
        some (torusPointSpec p q R r steps i)) := by
  constructor
  · simp [generate_torus_knot, pyRange]
  · intro i hi
    simp [generate_torus_knot, pyRange, torusPointSpec, torusT,
      List.getElem?_map, List.getElem?_range, hi]

/-- C5 witness: the theorem at `p = q = 1`, `R = r = 1`, one step. -/
theorem generate_torus_knot_spec_correct_witness :
    (generate_torus_knot 1 1 (1 : ℝ) 1 1).length = 1 ∧
    (generate_torus_knot 1 1 (1 : ℝ) 1 1)[0]? = some (torusPointSpec 1 1 1 1 1 0) := by
  have h := generate_torus_knot_spec_correct 1 1 1 1 1
    (by norm_num) (by norm_num) (by norm_num)
  exact ⟨h.1, h.2 0 (by decide)⟩

/-! ### Claim C6 -/

/-- C6: every point the torus-knot generator emits satisfies
`x^2 + y^2 = (R + r * cos(p * t))^2` for the parameter value `t` of that
point, in exact real arithmetic. -/
theorem torus_knot_on_tube (p q : ℤ) (R r : ℝ) (steps : ℤ) (i : ℕ) (pt : P3)
    (h : (generate_torus_knot p q R r steps)[i]? = some pt) :
    pt.1 ^ 2 + pt.2.1 ^ 2 = (R + r * Real.cos ((p : ℝ) * torusT p q steps i)) ^ 2 := by
  rcases Nat.lt_or_ge i steps.toNat with hi | hi
  · simp only [generate_torus_knot, pyRange, List.getElem?_map,
      List.getElem?_range hi, Option.map_some'] at h
    rw [Option.some_inj] at h
    subst h
    have h1 := Real.sin_sq_add_cos_sq ((q : ℝ) * torusT p q steps i)
    dsimp only
    linear_combination (R + r * Real.cos ((p : ℝ) * torusT p q steps i)) ^ 2 * h1
  · have hnone : (generate_torus_knot p q R r steps)[i]? = none := by
      apply List.getElem?_eq_none
      simp only [generate_torus_knot, pyRange, List.length_map, List.length_range]
      omega
    rw [hnone] at h
    exact Option.noConfusion h

/-- C6 witness: the theorem at `p = 3`, `q = 2`, `R = 100`, `r = 50`,
`steps = 4`, index 0, whose emitted point is `(150, 0, 0)`. -/
theorem torus_knot_on_tube_witness :
    ((150 : ℝ)) ^ 2 + (0 : ℝ) ^ 2 =
      ((100 : ℝ) + 50 * Real.cos ((3 : ℝ) * torusT 3 2 4 0)) ^ 2 := by
  have ht : torusT 3 2 4 0 = 0 := by simp [torusT]
  have hev : (generate_torus_knot 3 2 (100 : ℝ) 50 4)[0]? =
      some (((150 : ℝ), 0, 0) : P3) := by
    simp only [generate_torus_knot, pyRange]
    norm_num [List.getElem?_map, List.getElem?_range (by norm_num : (0 : ℕ) < (4 : ℤ).toNat), ht]
  have h := torus_knot_on_tube 3 2 100 50 4 0 ((150 : ℝ), 0, 0) hev
  simpa using h

/-! ### Claim C7 -/

/-- C7: the Lorenz generator's output is a function of its parameters
alone: any two runs of the loop relation with the same `steps` and `dt`
from the fixed initial state `(0.1, 0, 0)` emit identical sequences,
element for element. -/
theorem lorenz_runs_identical (steps : ℕ) (dt : ℝ) (l1 l2 : List P3)
    (h1 : LorenzRun dt steps (0.1, 0, 0) l1)
    (h2 : LorenzRun dt steps (0.1, 0, 0) l2) : l1 = l2 :=
  lorenzRun_det dt steps (0.1, 0, 0) l1 l2 h1 h2

/-- C7 witness: two one-step runs with `dt = 1`, one of them produced by
the loop itself and one built by hand, agree on the emitted list. -/
theorem lorenz_runs_identical_witness :
    lorenzLoop 1 1 ((0.1 : ℝ), 0, 0) = [((1 : ℝ), 0, 0)] := by
  have e : lorenzEmit ((0.1 : ℝ), 0, 0) = ((1 : ℝ), 0, 0) := by
    rw [lorenzEmit]
    norm_num
  have h2 : LorenzRun 1 1 ((0.1 : ℝ), 0, 0) [((1 : ℝ), 0, 0)] := by
    rw [← e]
    exact LorenzRun.step 0 ((0.1 : ℝ), 0, 0) [] (LorenzRun.done _)
  exact lorenz_runs_identical 1 1 _ _ (lorenzRun_loop 1 1 ((0.1 : ℝ), 0, 0)) h2

/-! ### Claim C9 -/

/-- C9: in exact real arithmetic every point the spiral-sphere generator
emits lies on the sphere of the given radius centered at the origin:
`x^2 + y^2 + z^2 = radius^2`, for all positive steps, radius and turns. -/
theorem spiral_points_on_sphere (steps : ℤ) (radius turns : ℝ)
    (hs : 0 < steps) (hr : 0 < radius) (_ht : 0 < turns)
    (i : ℕ) (pt : P3)
    (h : exGet (spiral steps radius turns) i = some pt) :
    onSphere radius pt := by
  have hne : steps ≠ 0 := by omega
  obtain ⟨l, hl, hsph⟩ := spiralLoop_ok_sphere radius (2 * radius / (steps : ℝ))
      (turns * 2 * Real.pi / (steps : ℝ)) steps.toNat (-radius) 0
      (spiral_bound steps radius hs hr)
  have hspir : spiral steps radius turns = .ok l := by
    simp [spiral, pyDivZ, hne, hl]
  rw [hspir] at h
  simp only [exGet] at h
  exact hsph pt (List.getElem?_mem h)

/-- C9 witness: the theorem at `steps = 1`, `radius = 1`, `turns = 1`,
whose single emitted point is `(0, -1, 0)`. -/
theorem spiral_points_on_sphere_witness : onSphere 1 ((0 : ℝ), -1, 0) := by
  have h0 : (1 : ℝ) * 1 - -1 * -1 = 0 := by norm_num
  have hms : mathSqrt ((1 : ℝ) * 1 - -1 * -1) = .ok 0 := by
    rw [h0, mathSqrt, if_neg (lt_irrefl (0 : ℝ)), Real.sqrt_zero]
  have hev : exGet (spiral 1 1 1) 0 = some (((0 : ℝ), -1, 0) : P3) := by
    have hne : ¬ ((1 : ℤ) = 0) := by norm_num
    simp only [spiral, pyDivZ, if_neg hne, Int.toNat_one, spiralLoop, hms,
      mul_zero, exGet]
    norm_num
  exact spiral_points_on_sphere 1 1 1 (by norm_num) (by norm_num) (by norm_num)
    0 ((0 : ℝ), -1, 0) hev
